import Mathlib

set_option maxHeartbeats 1000000

/-!
Shallow embedding of cpwln (src/main.rs): a command-line tool that relocates
regular files and replaces every hard link to them with a symbolic link to the
relocated copy.

The filesystem is modelled as an association list from path strings to nodes
(regular file carrying a storage id, directory, or symbolic link carrying a
relative target string).  Machine integers are modelled as Nat; the one u64
subtraction that can wrap (SourceCounter::get_remaning_other_links) is modelled
explicitly modulo 2^64, matching release-mode two's-complement semantics.
Glob enumeration is modelled as an input list of matched path strings; every
other filesystem primitive (stat with symlink following, copy, remove_file,
symlink creation, create_dir_all) is an explicit state transformer.
-/

/-- Splits a list of characters at the slash separator (path components). -/
def splitChars : List Char → List Char → List (List Char)
  | [], acc => [acc.reverse]
  | c :: rest, acc =>
    if c = '/' then acc.reverse :: splitChars rest [] else splitChars rest (c :: acc)

/-- Logical path components of a path string: split at slashes, dropping empty
components and current-directory components, as the relative-path crate does. -/
def comps (s : String) : List String :=
  ((splitChars s.toList []).map (fun l => String.mk l)).filter
    (fun c => decide (c ≠ "" ∧ c ≠ "."))

/-- Models RelativePath::join followed by to_string. -/
def joinPath (d name : String) : String :=
  String.intercalate "/" (comps d ++ [name])

/-- Models RelativePath::file_name: the last component, if any and not a
parent-directory component. -/
def fileName (s : String) : Option String :=
  match (comps s).getLast? with
  | some c => if c = ".." then none else some c
  | none => none

/-- Models RelativePath::parent: drops the last component; none for an empty
path. -/
def parentStr (s : String) : Option String :=
  match comps s with
  | [] => none
  | cs => some (String.intercalate "/" cs.dropLast)

/-- Lexical normalization of a component list: resolves parent-directory
components against the accumulated prefix. -/
def normalizeComps (cs : List String) : List String :=
  cs.foldl (fun acc c => if c = ".." then acc.dropLast else acc ++ [c]) []

/-- Resolves a relative target string against a base directory component list
(used when the OS follows a symbolic link). -/
def joinResolve (base : List String) (t : String) : String :=
  String.intercalate "/" (normalizeComps (base ++ comps t))

/-- Models RelativePath::relative: the path of `target` expressed relative to
the directory `base`, computed lexically. -/
def relativeToList : List String → List String → List String
  | [], ts => ts
  | b :: bs, [] => (b :: bs).map (fun _ => "..")
  | b :: bs, t :: ts =>
    if b = t then relativeToList bs ts else (b :: bs).map (fun _ => "..") ++ t :: ts

/-- String form of `relativeToList`. -/
def relPathStr (baseDir target : String) : String :=
  String.intercalate "/" (relativeToList (comps baseDir) (comps target))

/-- A directory entry: regular file (with its storage-object id), directory,
or symbolic link storing a relative target string. -/
inductive Node where
  | file (ino : Nat)
  | dir
  | symlink (target : String)
  deriving DecidableEq

/-- Filesystem state: directory entries keyed by path string, plus a counter
for allocating fresh storage ids. -/
structure Fs where
  entries : List (String × Node)
  nextIno : Nat
  deriving DecidableEq

/-- Looks up the node stored at a path (no symlink following). -/
def Fs.lookup (fs : Fs) (p : String) : Option Node :=
  (fs.entries.find? (fun e => e.1 == p)).map (fun e => e.2)

/-- All paths whose entry is a hard link to storage object `i`. -/
def filterPaths (fs : Fs) (i : Nat) : List String :=
  (fs.entries.filter (fun e => e.2 == Node.file i)).map (fun e => e.1)

/-- The hard-link count of storage object `i`: how many directory entries
reference it. -/
def linkCount (fs : Fs) (i : Nat) : Nat :=
  (filterPaths fs i).length

/-- Kind of a stat result (after symlink resolution only files and
directories remain). -/
inductive FKind where
  | file
  | dir
  deriving DecidableEq

/-- Result of a successful stat call: storage id, hard-link count and kind. -/
structure StatInfo where
  ino : Nat
  nlink : Nat
  kind : FKind
  deriving DecidableEq

/-- Fuelled stat: follows symbolic links (resolving relative targets against
the link's parent directory), returning none on a missing path, a dangling or
cyclic symlink chain. -/
def statFn (fs : Fs) : Nat → String → Option StatInfo
  | 0, _ => none
  | fuel + 1, p =>
    match Fs.lookup fs p with
    | some (Node.file i) => some { ino := i, nlink := linkCount fs i, kind := FKind.file }
    | some Node.dir => some { ino := 0, nlink := 1, kind := FKind.dir }
    | some (Node.symlink t) => statFn fs fuel (joinResolve ((comps p).dropLast) t)
    | none => none

/-- Models fs::metadata (stat following symlinks). -/
def Fs.stat (fs : Fs) (p : String) : Option StatInfo :=
  statFn fs (fs.entries.length + 1) p

/-- Error taxonomy of the run (the Rust code surfaces all of these as boxed
io::Error values; the constructors follow the spec's taxonomy). -/
inductive Err where
  | ioError (path : String)
  | validation (msg : String)
  | incomplete
  deriving DecidableEq

/-- Outcome of a stateful step: normal value, returned error, or process
abort (a Rust panic raised by expect/unwrap).  Every constructor carries the
filesystem state at that point. -/
inductive Res (α : Type) where
  | ok (fs : Fs) (val : α)
  | err (fs : Fs) (e : Err)
  | crash (fs : Fs) (msg : String)
  deriving DecidableEq

/-- The filesystem state carried by an outcome. -/
def Res.stateOf {α : Type} : Res α → Fs
  | Res.ok fs _ => fs
  | Res.err fs _ => fs
  | Res.crash fs _ => fs

/-- True when the outcome is a returned error. -/
def Res.isErr {α : Type} : Res α → Bool
  | Res.err _ _ => true
  | _ => false

/-- Models fs::remove_file: removes the entry at the path itself (a symbolic
link is removed, not followed); fails on a missing path or a directory. -/
def remove_file (fs : Fs) (p : String) : Except Err Fs :=
  match Fs.lookup fs p with
  | none => Except.error (Err.ioError p)
  | some Node.dir => Except.error (Err.ioError p)
  | some _ => Except.ok { fs with entries := fs.entries.filter (fun e => !(e.1 == p)) }

/-- Models std::os::unix::fs::symlink: creates a symbolic link at `linkPath`
with the given target string; fails if the path is already occupied. -/
def symlink (fs : Fs) (target linkPath : String) : Except Err Fs :=
  match Fs.lookup fs linkPath with
  | some _ => Except.error (Err.ioError linkPath)
  | none => Except.ok { fs with entries := fs.entries ++ [(linkPath, Node.symlink target)] }

/-- Models fs::copy: requires the source to stat as a regular file; an
existing regular-file destination is overwritten in place (same entry, same
storage id), a missing destination is created with a fresh storage id, a
directory destination is an error. -/
def fs_copy (fs : Fs) (src dst : String) : Except Err Fs :=
  match Fs.stat fs src with
  | some srcSt =>
    if srcSt.kind = FKind.file then
      match Fs.stat fs dst with
      | some dstSt =>
        if dstSt.kind = FKind.dir then Except.error (Err.ioError dst) else Except.ok fs
      | none =>
        Except.ok { fs with
          entries := fs.entries ++ [(dst, Node.file fs.nextIno)], nextIno := fs.nextIno + 1 }
    else Except.error (Err.ioError src)
  | none => Except.error (Err.ioError src)

/-- Models fs::create_dir_all at a currently missing path. -/
def create_dir_all (fs : Fs) (p : String) : Fs :=
  if (Fs.lookup fs p).isSome then fs
  else { fs with entries := fs.entries ++ [(p, Node.dir)] }

/-- Models ensure_dir (main.rs lines 203 to 219): make sure the destination is
a directory, replacing a non-directory entry occupying the path. -/
def ensure_dir (fs : Fs) (p : String) : Except Err Fs :=
  match Fs.stat fs p with
  | none => Except.ok (create_dir_all fs p)
  | some st =>
    if st.kind = FKind.dir then Except.ok fs
    else
      match remove_file fs p with
      | Except.error e => Except.error e
      | Except.ok fs1 => Except.ok (create_dir_all fs1 p)

/-- Per-source link inventory (struct SourceCounter, main.rs lines 13 to 18). -/
structure SourceCounter where
  path : String
  inode : Nat
  num_other_links : Nat
  paths_other_links : List String
  deriving DecidableEq

/-- SourceCounter::new (main.rs lines 21 to 28). -/
def SourceCounter.new (path : String) (inode num_other_links : Nat) : SourceCounter :=
  { path := path, inode := inode, num_other_links := num_other_links, paths_other_links := [] }

/-- SourceCounter::new_by_stat (main.rs lines 30 to 37); note that this unused
constructor stores the raw nlink value. -/
def SourceCounter.new_by_stat (path : String) (st : StatInfo) : SourceCounter :=
  { path := path, inode := st.ino, num_other_links := st.nlink, paths_other_links := [] }

/-- SourceCounter::get_remaning_other_links (main.rs lines 39 to 41): the u64
subtraction num_other_links - paths_other_links.len(), wrapping modulo 2^64
(release-mode semantics). -/
def SourceCounter.get_remaning_other_links (c : SourceCounter) : Nat :=
  (((c.num_other_links : Int) - (c.paths_other_links.length : Int)) %
    (18446744073709551616 : Int)).toNat

/-- SourceCounter::add_path_other_link (main.rs lines 43 to 50): record a
discovered link path, skipping duplicates and the source path itself. -/
def SourceCounter.add_path_other_link (c : SourceCounter) (path : String) : SourceCounter :=
  if path ∈ c.paths_other_links then c
  else if c.path = path then c
  else { c with paths_other_links := c.paths_other_links ++ [path] }

/-- SourceCounter::is_all_links_found (main.rs lines 52 to 54). -/
def SourceCounter.is_all_links_found (c : SourceCounter) : Bool :=
  c.get_remaning_other_links == 0

/-- The inode-keyed inventory mapping (HashMap of u64 to SourceCounter). -/
abbrev Counters := List (Nat × SourceCounter)

/-- Looks up the inventory entry of a storage id (HashMap::get). -/
def getCounter (cs : Counters) (k : Nat) : Option SourceCounter :=
  (cs.find? (fun kv => kv.1 == k)).map (fun kv => kv.2)

/-- Applies a function to the inventory entry of a storage id
(HashMap::get_mut followed by a mutation). -/
def updateCounter (cs : Counters) (k : Nat) (f : SourceCounter → SourceCounter) : Counters :=
  cs.map (fun kv => if kv.1 = k then (kv.1, f kv.2) else kv)

/-- The discovery update for one matched path whose stat yielded storage id
`k`: if the id is tracked, record the path (main.rs lines 120 to 122). -/
def addIfTracked (cs : Counters) (k : Nat) (p : String) : Counters :=
  match getCounter cs k with
  | some _ => updateCounter cs k (fun c => SourceCounter.add_path_other_link c p)
  | none => cs

/-- Inserts an inventory entry, overwriting an existing entry with the same
key (HashMap::insert via collect). -/
def insertCounter (cs : Counters) (k : Nat) (v : SourceCounter) : Counters :=
  match getCounter cs k with
  | some _ => cs.map (fun kv => if kv.1 = k then (k, v) else kv)
  | none => cs ++ [(k, v)]

/-- Collects a list of counters into the inode-keyed mapping
(main.rs lines 300 to 302). -/
def buildMap (l : List SourceCounter) : Counters :=
  l.foldl (fun m c => insertCounter m c.inode c) []

/-- search_and_count (main.rs lines 106 to 136): walk the glob matches (given
here as the list of matched path strings), stat each match, and attribute it
to the inventory entry of its storage id; a stat failure aborts discovery
with the underlying error. -/
def search_and_count : Fs → List String → Counters → Res Counters
  | fs, [], cs => Res.ok fs cs
  | fs, m :: rest, cs =>
    match Fs.stat fs m with
    | some st => search_and_count fs rest (addIfTracked cs st.ino m)
    | none => Res.err fs (Err.ioError m)

/-- replace_with_symlink (main.rs lines 140 to 171): replace the entry at
`destination` with a symbolic link to `source`; if `destination` stats as a
directory the link is instead created inside it under the basename of
`source`.  The symlink target is `source` expressed relative to the created
link's parent directory. -/
def replace_with_symlink (fs : Fs) (source destination : String) : Res Unit :=
  match Fs.stat fs destination with
  | none => Res.err fs (Err.ioError destination)
  | some md =>
    if md.kind = FKind.dir then
      match fileName source with
      | none => Res.crash fs "unwrap on None"
      | some name =>
        match symlink fs (relPathStr destination source) (joinPath destination name) with
        | Except.error e => Res.err fs e
        | Except.ok fs1 => Res.ok fs1 ()
    else
      match remove_file fs destination with
      | Except.error e => Res.err fs e
      | Except.ok fs1 =>
        match parentStr destination with
        | none => Res.crash fs1 "unwrap on None"
        | some pdir =>
          match symlink fs1 (relPathStr pdir source) destination with
          | Except.error e => Res.err fs1 e
          | Except.ok fs2 => Res.ok fs2 ()

/-- Destination-path resolution of move_counter (main.rs lines 174 to 187):
an existing directory destination receives the basename of the source path;
anything else is taken verbatim. -/
def resolveDest (fs : Fs) (sourcePath destination : String) : Option String :=
  match Fs.stat fs destination with
  | some md =>
    if md.kind = FKind.dir then
      match fileName sourcePath with
      | some name => some (joinPath destination name)
      | none => none
    else some destination
  | none => some destination

/-- The per-path replacement loop of move_counter (main.rs lines 196 to 198). -/
def replaceLoop : Fs → String → List String → Res Unit
  | fs, _, [] => Res.ok fs ()
  | fs, dfp, p :: rest =>
    match replace_with_symlink fs dfp p with
    | Res.ok fs1 _ => replaceLoop fs1 dfp rest
    | Res.err fs1 e => Res.err fs1 e
    | Res.crash fs1 m => Res.crash fs1 m

/-- move_counter (main.rs lines 173 to 201): resolve the destination path,
copy the content there, then replace the source path and every discovered
link path with a symbolic link to the copy. -/
def move_counter (fs : Fs) (source : SourceCounter) (destination : String) : Res Unit :=
  match resolveDest fs source.path destination with
  | none => Res.crash fs "unwrap on None"
  | some dfp =>
    match fs_copy fs source.path dfp with
    | Except.error e => Res.err fs e
    | Except.ok fs1 =>
      match replace_with_symlink fs1 dfp source.path with
      | Res.ok fs2 _ => replaceLoop fs2 dfp source.paths_other_links
      | Res.err fs2 e => Res.err fs2 e
      | Res.crash fs2 m => Res.crash fs2 m

/-- Source validation of main (main.rs lines 241 to 254): stat the declared
source; a stat failure is a process abort (expect), a directory or other
non-file is a collected error value. -/
def validateSource (fs : Fs) (s : String) : Option (Except String (String × StatInfo)) :=
  match Fs.stat fs s with
  | none => none
  | some st =>
    if st.kind = FKind.dir then some (Except.error "Directories are not supported yet.")
    else if st.kind ≠ FKind.file then some (Except.error "Only files are supported at the moment")
    else some (Except.ok (s, st))

/-- Stats all declared sources in order; none models the process abort raised
by the first failing stat call. -/
def statPhase : Fs → List String → Option (List (Except String (String × StatInfo)))
  | _, [] => some []
  | fs, s :: rest =>
    match validateSource fs s with
    | none => none
    | some r =>
      match statPhase fs rest with
      | none => none
      | some rs => some (r :: rs)

/-- First collected validation error, if any (main.rs lines 258 to 263). -/
def findErr (rs : List (Except String (String × StatInfo))) : Option String :=
  rs.findSome? (fun r => match r with | Except.error m => some m | Except.ok _ => none)

/-- The successfully validated sources with their stat results. -/
def collectOks (rs : List (Except String (String × StatInfo))) : List (String × StatInfo) :=
  rs.filterMap (fun r => match r with | Except.ok v => some v | Except.error _ => none)

/-- Inventory construction of main (main.rs lines 282 to 296): the expected
other-link count is the stat-time hard-link count minus one. -/
def mkCounterMain (path : String) (st : StatInfo) : SourceCounter :=
  { path := path, inode := st.ino, num_other_links := st.nlink - 1, paths_other_links := [] }

/-- The completeness gate of main (main.rs lines 306 to 314). -/
def gateFails (cs : Counters) : Bool :=
  cs.any (fun kv => !(SourceCounter.is_all_links_found kv.2))

/-- The relocation loop of main (main.rs lines 320 to 322). -/
def moveLoop : Fs → Counters → String → Res Unit
  | fs, [], _ => Res.ok fs ()
  | fs, kv :: rest, dest =>
    match move_counter fs kv.2 dest with
    | Res.ok fs1 _ => moveLoop fs1 rest dest
    | Res.err fs1 e => Res.err fs1 e
    | Res.crash fs1 m => Res.crash fs1 m

/-- main (main.rs lines 221 to 325), with argument parsing externalized: the
glob matches are given as a list of matched path strings, the declared sources
and the destination as strings. -/
def runMain (fs : Fs) (globMatches : List String) (sources : List String)
    (destination : String) : Res Unit :=
  match statPhase fs sources with
  | none => Res.crash fs "Failed to read metadata"
  | some results =>
    match findErr results with
    | some msg => Res.err fs (Err.validation msg)
    | none =>
      match search_and_count fs globMatches
          (buildMap ((collectOks results).map (fun pr => mkCounterMain pr.1 pr.2))) with
      | Res.err fs1 e => Res.err fs1 e
      | Res.crash fs1 m => Res.crash fs1 m
      | Res.ok fs1 updated =>
        if gateFails updated then Res.err fs1 Err.incomplete
        else
          match
            (if 1 < (collectOks results).length then ensure_dir fs1 destination
             else Except.ok fs1) with
          | Except.error e => Res.err fs1 e
          | Except.ok fs2 => moveLoop fs2 updated destination

/-- First validation-error message a source list would produce, assuming all
stat calls succeed. -/
def errOf (fs : Fs) (s : String) : Option String :=
  match Fs.stat fs s with
  | none => none
  | some st =>
    if st.kind = FKind.dir then some "Directories are not supported yet."
    else if st.kind ≠ FKind.file then some "Only files are supported at the moment"
    else none

/-- Keys of the inventory mapping. -/
def counterKeys (cs : Counters) : List Nat :=
  cs.map (fun kv => kv.1)

/-- Storage id obtained by statting a path (following symlinks). -/
def statIno (fs : Fs) (p : String) : Option Nat :=
  (Fs.stat fs p).map (fun st => st.ino)

/-- Invariant of an inventory entry during discovery over a fixed filesystem:
the entry is keyed by its storage id, its source path is a genuine hard-link
directory entry of that object, its expected count is the object's link count
minus one, and its recorded paths are distinct hard-link directory entries of
the object other than the source path. -/
def EntryInv (fs : Fs) (k : Nat) (c : SourceCounter) : Prop :=
  c.inode = k ∧ (c.path, Node.file k) ∈ fs.entries ∧
  c.num_other_links = linkCount fs k - 1 ∧
  c.paths_other_links.Nodup ∧
  ∀ p ∈ c.paths_other_links, (p, Node.file k) ∈ fs.entries ∧ p ≠ c.path

instance (fs : Fs) (k : Nat) (c : SourceCounter) : Decidable (EntryInv fs k c) := by
  unfold EntryInv
  infer_instance

/-! ## Helper lemmas -/

/-- Discovery threads the filesystem state through unchanged: the loop only
performs stat calls. -/
theorem search_state (ms : List String) (fs : Fs) (cs : Counters) :
    Res.stateOf (search_and_count fs ms cs) = fs := by
  induction ms generalizing cs with
  | nil => rfl
  | cons m rest ih =>
    cases h : Fs.stat fs m with
    | some st => simp [search_and_count, h, ih]
    | none => simp [search_and_count, h, Res.stateOf]

theorem search_ok_state {ms : List String} {fs fs1 : Fs} {cs cs1 : Counters}
    (h : search_and_count fs ms cs = Res.ok fs1 cs1) : fs1 = fs := by
  have hs := search_state ms fs cs
  rw [h] at hs
  exact hs

theorem lookup_mem {fs : Fs} {p : String} {n : Node} (h : Fs.lookup fs p = some n) :
    (p, n) ∈ fs.entries := by
  unfold Fs.lookup at h
  cases hf : fs.entries.find? (fun e => e.1 == p) with
  | none => rw [hf] at h; simp at h
  | some e =>
    rw [hf] at h
    simp only [Option.map_some', Option.some.injEq] at h
    have hmem := List.mem_of_find?_eq_some hf
    have hp := List.find?_some hf
    have hp2 : e.1 = p := by simpa using hp
    have : (p, n) = e := by
      cases e with
      | mk a b => simp_all
    rw [this]
    exact hmem

theorem mem_filterPaths {fs : Fs} {p : String} {i : Nat}
    (h : (p, Node.file i) ∈ fs.entries) : p ∈ filterPaths fs i := by
  unfold filterPaths
  refine List.mem_map.mpr ⟨(p, Node.file i), ?_, rfl⟩
  exact List.mem_filter.mpr ⟨h, by simp⟩

theorem statFn_file_spec {fs : Fs} :
    ∀ (fuel : Nat) (p : String) (st : StatInfo), statFn fs fuel p = some st →
      st.kind = FKind.file → st.nlink = linkCount fs st.ino ∧ 1 ≤ st.nlink := by
  intro fuel
  induction fuel with
  | zero => intro p st h; simp [statFn] at h
  | succ n ih =>
    intro p st h hk
    unfold statFn at h
    cases hl : Fs.lookup fs p with
    | none => rw [hl] at h; simp at h
    | some node =>
      rw [hl] at h
      cases node with
      | file i =>
        simp only [Option.some.injEq] at h
        subst h
        refine ⟨rfl, ?_⟩
        have hmem := mem_filterPaths (lookup_mem hl)
        exact List.length_pos_of_mem hmem
      | dir =>
        simp only [Option.some.injEq] at h
        subst h
        simp at hk
      | symlink t => exact ih _ st h hk

theorem stat_file_spec {fs : Fs} {p : String} {st : StatInfo}
    (h : Fs.stat fs p = some st) (hk : st.kind = FKind.file) :
    st.nlink = linkCount fs st.ino ∧ 1 ≤ st.nlink :=
  statFn_file_spec _ p st h hk

/-! ## C9 and C10 -/

/-- Claim C9: the discovery phase performs no filesystem mutation: for every
glob-match list and inventory mapping, the filesystem state carried out of
search_and_count (through success and failure alike) is the input state; the
loop only reads metadata and updates the in-memory inventories. -/
theorem c9_discovery_read_only (fs : Fs) (ms : List String) (cs : Counters) :
    Res.stateOf (search_and_count fs ms cs) = fs :=
  search_state ms fs cs

/-- Claim C10: if the path to be replaced cannot be statted, replace_with_symlink
returns the stat error immediately and the filesystem is unchanged: nothing is
removed and no symlink is created. -/
theorem c10_replace_stat_failure_unchanged (fs : Fs) (source destination : String)
    (h : Fs.stat fs destination = none) :
    replace_with_symlink fs source destination = Res.err fs (Err.ioError destination) := by
  unfold replace_with_symlink
  rw [h]

theorem c10_replace_stat_failure_unchanged_witness :
    replace_with_symlink { entries := [], nextIno := 0 } "src.txt" "gone.txt" =
      Res.err { entries := [], nextIno := 0 } (Err.ioError "gone.txt") :=
  c10_replace_stat_failure_unchanged { entries := [], nextIno := 0 } "src.txt" "gone.txt"
    (by decide)

/-! ## C6 -/

/-- Claim C6: if the initial content copy fails, move_counter aborts with that
IO error and the filesystem state is the untouched input state, so neither the
source path nor any discovered link path has been removed or replaced. -/
theorem c6_copy_failure_originals_untouched (fs : Fs) (c : SourceCounter)
    (destination dfp : String) (e : Err)
    (hres : resolveDest fs c.path destination = some dfp)
    (hcopy : fs_copy fs c.path dfp = Except.error e) :
    move_counter fs c destination = Res.err fs e := by
  simp only [move_counter, hres, hcopy]

theorem c6_copy_failure_originals_untouched_witness :
    move_counter { entries := [], nextIno := 0 }
      { path := "a.txt", inode := 1, num_other_links := 0, paths_other_links := [] } "d.txt" =
      Res.err { entries := [], nextIno := 0 } (Err.ioError "a.txt") :=
  c6_copy_failure_originals_untouched { entries := [], nextIno := 0 }
    { path := "a.txt", inode := 1, num_other_links := 0, paths_other_links := [] }
    "d.txt" "d.txt" (Err.ioError "a.txt") (by decide) (by rfl)

/-! ## C8 -/

/-- Claim C8: destination resolution of move_counter: when the destination stats
as an existing directory the relocated content path is the destination joined
with the basename of the source path; when it stats as a non-directory or
cannot be statted at all, the destination string is used verbatim. -/
theorem c8_resolve_destination (fs : Fs) (sourcePath destination : String) :
    (∀ md, Fs.stat fs destination = some md → md.kind = FKind.dir →
      ∀ b, fileName sourcePath = some b →
        resolveDest fs sourcePath destination = some (joinPath destination b))
  ∧ (∀ md, Fs.stat fs destination = some md → md.kind ≠ FKind.dir →
      resolveDest fs sourcePath destination = some destination)
  ∧ (Fs.stat fs destination = none →
      resolveDest fs sourcePath destination = some destination) := by
  refine ⟨?_, ?_, ?_⟩
  · intro md hmd hk b hb
    simp only [resolveDest, hmd, hk, hb, if_true, reduceIte]
  · intro md hmd hk
    simp only [resolveDest, hmd, if_neg hk]
  · intro h
    simp only [resolveDest, h]

theorem c8_resolve_destination_witness :
    resolveDest { entries := [("dest", Node.dir)], nextIno := 1 } "s/a.txt" "dest" =
      some (joinPath "dest" "a.txt") ∧
    resolveDest { entries := [("dest", Node.file 1)], nextIno := 2 } "s/a.txt" "dest" =
      some "dest" ∧
    resolveDest { entries := [], nextIno := 0 } "s/a.txt" "fresh" = some "fresh" :=
  ⟨(c8_resolve_destination { entries := [("dest", Node.dir)], nextIno := 1 } "s/a.txt"
      "dest").1 { ino := 0, nlink := 1, kind := FKind.dir } (by decide) rfl "a.txt" (by decide),
   (c8_resolve_destination { entries := [("dest", Node.file 1)], nextIno := 2 } "s/a.txt"
      "dest").2.1 { ino := 1, nlink := 1, kind := FKind.file } (by decide) (by decide),
   (c8_resolve_destination { entries := [], nextIno := 0 } "s/a.txt" "fresh").2.2 (by decide)⟩

/-! ## C1 -/

/-- Claim C1 failing input: source a.txt is hard-linked as a.txt and b.txt
(two total links, ino 1), the pattern matches both paths, and the destination
is the literal path b.txt (one of the links).  The run reports success, yet
afterwards both original paths are symbolic links (b.txt a self-loop) and no
directory entry references storage object 1 any more: no non-symlink copy of
the content exists anywhere, contradicting the claimed post-state. -/
theorem c1_destination_collision_data_loss :
    runMain { entries := [("a.txt", Node.file 1), ("b.txt", Node.file 1)], nextIno := 2 }
        ["a.txt", "b.txt"] ["a.txt"] "b.txt" =
      Res.ok { entries := [("a.txt", Node.symlink "b.txt"), ("b.txt", Node.symlink "b.txt")],
               nextIno := 2 } () ∧
    linkCount { entries := [("a.txt", Node.symlink "b.txt"), ("b.txt", Node.symlink "b.txt")],
                nextIno := 2 } 1 = 0 := by
  constructor
  · rfl
  · rfl

/-! ## C2 -/

/-- Claim C2: when discovery completes but at least one inventory entry still
reports missing links, the run returns the IncompleteDiscovery error carrying
the original, unmodified filesystem state: no copy, removal, symlink creation
or destination-directory creation has happened for any entry of the batch. -/
theorem c2_gate_blocks_all_mutation (fs : Fs) (gm sources : List String) (dest : String)
    (results : List (Except String (String × StatInfo))) (fs1 : Fs) (updated : Counters)
    (hstat : statPhase fs sources = some results)
    (hfind : findErr results = none)
    (hsearch : search_and_count fs gm
      (buildMap ((collectOks results).map (fun pr => mkCounterMain pr.1 pr.2))) =
      Res.ok fs1 updated)
    (hgate : gateFails updated = true) :
    runMain fs gm sources dest = Res.err fs Err.incomplete := by
  have hfs : fs1 = fs := search_ok_state hsearch
  subst hfs
  simp only [runMain, hstat, hfind, hsearch, hgate, if_true]

theorem c2_gate_blocks_all_mutation_witness :
    runMain { entries := [("a.txt", Node.file 1), ("b.txt", Node.file 1)], nextIno := 2 }
      ["a.txt"] ["a.txt"] "dest" =
      Res.err { entries := [("a.txt", Node.file 1), ("b.txt", Node.file 1)], nextIno := 2 }
        Err.incomplete :=
  c2_gate_blocks_all_mutation
    { entries := [("a.txt", Node.file 1), ("b.txt", Node.file 1)], nextIno := 2 }
    ["a.txt"] ["a.txt"] "dest"
    [Except.ok ("a.txt", { ino := 1, nlink := 2, kind := FKind.file })]
    { entries := [("a.txt", Node.file 1), ("b.txt", Node.file 1)], nextIno := 2 }
    [(1, { path := "a.txt", inode := 1, num_other_links := 1, paths_other_links := [] })]
    (by rfl) (by rfl) (by rfl) (by rfl)

/-! ## C4 -/

/-- Claim C4: every inventory built by main from a successfully validated
declared source stores expectedOtherLinks equal to the stat-time hard-link
count minus one (the subtraction is exact: the count of a statted regular
file is at least one). -/
theorem c4_expected_other_links (fs : Fs) (s : String) (st : StatInfo)
    (h : validateSource fs s = some (Except.ok (s, st))) :
    (mkCounterMain s st).num_other_links + 1 = st.nlink := by
  have hstat : Fs.stat fs s = some st ∧ st.kind = FKind.file := by
    cases hs : Fs.stat fs s with
    | none => simp [validateSource, hs] at h
    | some st1 =>
      cases hk : st1.kind with
      | dir => simp [validateSource, hs, hk] at h
      | file =>
        simp [validateSource, hs, hk] at h
        exact ⟨by rw [h], by rw [← h]; exact hk⟩
  have hpos := (stat_file_spec hstat.1 hstat.2).2
  have hnum : (mkCounterMain s st).num_other_links = st.nlink - 1 := rfl
  omega

theorem c4_expected_other_links_witness :
    (mkCounterMain "a.txt" { ino := 1, nlink := 2, kind := FKind.file }).num_other_links + 1 =
      StatInfo.nlink { ino := 1, nlink := 2, kind := FKind.file } :=
  c4_expected_other_links
    { entries := [("a.txt", Node.file 1), ("b.txt", Node.file 1)], nextIno := 2 }
    "a.txt" { ino := 1, nlink := 2, kind := FKind.file } (by rfl)

/-! ## C5 -/

theorem getCounter_cons (kv : Nat × SourceCounter) (rest : Counters) (k : Nat) :
    getCounter (kv :: rest) k = if kv.1 = k then some kv.2 else getCounter rest k := by
  cases hb : (kv.1 == k) with
  | true =>
    have h : kv.1 = k := by simpa using hb
    simp [getCounter, List.find?, hb, h]
  | false =>
    have h : ¬ kv.1 = k := by simpa using hb
    simp [getCounter, List.find?, hb, h]

theorem updateCounter_cons (kv : Nat × SourceCounter) (rest : Counters) (k : Nat)
    (f : SourceCounter → SourceCounter) :
    updateCounter (kv :: rest) k f =
      (if kv.1 = k then (kv.1, f kv.2) else kv) :: updateCounter rest k f := by
  by_cases h : kv.1 = k <;> simp [updateCounter, h]

theorem getCounter_updateCounter_self (cs : Counters) (k : Nat)
    (f : SourceCounter → SourceCounter) (c : SourceCounter)
    (h : getCounter cs k = some c) :
    getCounter (updateCounter cs k f) k = some (f c) := by
  induction cs with
  | nil => simp [getCounter] at h
  | cons kv rest ih =>
    rw [getCounter_cons] at h
    rw [updateCounter_cons]
    by_cases hk : kv.1 = k
    · rw [if_pos hk] at h
      rw [if_pos hk, getCounter_cons]
      simp only [Option.some.injEq] at h
      simp [hk, h]
    · rw [if_neg hk] at h
      rw [if_neg hk, getCounter_cons, if_neg hk]
      exact ih h

theorem getCounter_updateCounter_ne (cs : Counters) (j k : Nat)
    (f : SourceCounter → SourceCounter) (h : j ≠ k) :
    getCounter (updateCounter cs j f) k = getCounter cs k := by
  induction cs with
  | nil => rfl
  | cons kv rest ih =>
    rw [updateCounter_cons]
    by_cases hk : kv.1 = j
    · rw [if_pos hk, getCounter_cons, getCounter_cons]
      have : ¬ kv.1 = k := by rw [hk]; exact h
      simp only [this, if_false, if_neg h, ih]
    · rw [if_neg hk, getCounter_cons, getCounter_cons]
      by_cases h2 : kv.1 = k
      · simp [h2]
      · simp [h2, ih]

/-- Claim C5: semantics of one discovery update.  Given a matched path `mp`
whose stat produced `st`, the inventory keyed by `st.ino` (and only that one)
receives add_path_other_link; an untracked storage id changes nothing; and
add_path_other_link appends the path exactly when it is neither the entry's
own source path nor already recorded, never lets the source path appear, and
is idempotent, so a doubly matched path is kept once. -/
theorem c5_discovery_step_semantics (cs : Counters) (mp : String) (st : StatInfo)
    (k : Nat) (c : SourceCounter) (hget : getCounter cs k = some c) :
    (st.ino = k → getCounter (addIfTracked cs st.ino mp) k =
      some (SourceCounter.add_path_other_link c mp))
  ∧ (st.ino ≠ k → getCounter (addIfTracked cs st.ino mp) k = some c)
  ∧ (getCounter cs st.ino = none → addIfTracked cs st.ino mp = cs)
  ∧ ((SourceCounter.add_path_other_link c mp).paths_other_links.count mp =
      c.paths_other_links.count mp +
        (if mp ∉ c.paths_other_links ∧ mp ≠ c.path then 1 else 0))
  ∧ (c.path ∉ c.paths_other_links →
      c.path ∉ (SourceCounter.add_path_other_link c mp).paths_other_links)
  ∧ ((SourceCounter.add_path_other_link c mp).add_path_other_link mp =
      SourceCounter.add_path_other_link c mp) := by
  refine ⟨?_, ?_, ?_, ?_, ?_, ?_⟩
  · intro hk
    subst hk
    unfold addIfTracked
    rw [hget]
    exact getCounter_updateCounter_self cs st.ino _ c hget
  · intro hk
    unfold addIfTracked
    cases hio : getCounter cs st.ino with
    | none => exact hget
    | some c1 => rw [getCounter_updateCounter_ne cs st.ino k _ hk]; exact hget
  · intro hio
    unfold addIfTracked
    rw [hio]
  · unfold SourceCounter.add_path_other_link
    by_cases h1 : mp ∈ c.paths_other_links
    · rw [if_pos h1]
      have : ¬ (mp ∉ c.paths_other_links ∧ mp ≠ c.path) := by
        intro hc
        exact hc.1 h1
      rw [if_neg this]
      exact (Nat.add_zero _).symm
    · rw [if_neg h1]
      by_cases h2 : c.path = mp
      · rw [if_pos h2]
        have : ¬ (mp ∉ c.paths_other_links ∧ mp ≠ c.path) := by
          intro hc
          exact hc.2 h2.symm
        rw [if_neg this]
        exact (Nat.add_zero _).symm
      · rw [if_neg h2]
        have hcond : mp ∉ c.paths_other_links ∧ mp ≠ c.path :=
          ⟨h1, fun he => h2 he.symm⟩
        rw [if_pos hcond]
        simp [List.count_append]
  · intro hnot
    unfold SourceCounter.add_path_other_link
    by_cases h1 : mp ∈ c.paths_other_links
    · rw [if_pos h1]; exact hnot
    · rw [if_neg h1]
      by_cases h2 : c.path = mp
      · rw [if_pos h2]; exact hnot
      · rw [if_neg h2]
        simp only [List.mem_append, List.mem_singleton]
        intro hc
        cases hc with
        | inl hl => exact hnot hl
        | inr hr => exact h2 hr
  · unfold SourceCounter.add_path_other_link
    by_cases h1 : mp ∈ c.paths_other_links
    · simp [h1]
    · rw [if_neg h1]
      by_cases h2 : c.path = mp
      · simp [h1, h2]
      · rw [if_neg h2]
        have hmem : mp ∈ c.paths_other_links ++ [mp] := by simp
        simp [hmem]

theorem c5_discovery_step_semantics_witness :
    getCounter
      (addIfTracked
        [(1, { path := "a.txt", inode := 1, num_other_links := 1, paths_other_links := [] })]
        1 "b.txt") 1 =
      some (SourceCounter.add_path_other_link
        { path := "a.txt", inode := 1, num_other_links := 1, paths_other_links := [] } "b.txt") ∧
    (SourceCounter.add_path_other_link
      { path := "a.txt", inode := 1, num_other_links := 1, paths_other_links := [] }
      "b.txt").add_path_other_link "b.txt" =
      SourceCounter.add_path_other_link
        { path := "a.txt", inode := 1, num_other_links := 1, paths_other_links := [] } "b.txt" := by
  have h := c5_discovery_step_semantics
    [(1, { path := "a.txt", inode := 1, num_other_links := 1, paths_other_links := [] })]
    "b.txt" { ino := 1, nlink := 2, kind := FKind.file } 1
    { path := "a.txt", inode := 1, num_other_links := 1, paths_other_links := [] } (by rfl)
  exact ⟨h.1 rfl, h.2.2.2.2.2⟩

/-! ## C7 -/


theorem validateSource_none_iff (fs : Fs) (s : String) :
    validateSource fs s = none ↔ Fs.stat fs s = none := by
  unfold validateSource
  cases hs : Fs.stat fs s with
  | none => simp
  | some st => cases hk : st.kind <;> simp [hk]

theorem statPhase_none_iff (fs : Fs) (ss : List String) :
    statPhase fs ss = none ↔ ∃ s ∈ ss, Fs.stat fs s = none := by
  induction ss with
  | nil => simp [statPhase]
  | cons s rest ih =>
    simp only [statPhase]
    cases hv : validateSource fs s with
    | none =>
      constructor
      · intro _
        exact ⟨s, List.mem_cons_self s rest, (validateSource_none_iff fs s).mp hv⟩
      · intro _
        rfl
    | some r =>
      cases hp : statPhase fs rest with
      | none =>
        constructor
        · intro _
          obtain ⟨x, hx, hxs⟩ := ih.mp hp
          exact ⟨x, List.mem_cons_of_mem s hx, hxs⟩
        · intro _
          rfl
      | some rs =>
        constructor
        · intro h
          simp at h
        · rintro ⟨x, hx, hxs⟩
          rcases List.mem_cons.mp hx with hxe | hxr
          · subst hxe
            rw [(validateSource_none_iff fs x).mpr hxs] at hv
            exact Option.noConfusion hv
          · have h0 : statPhase fs rest = none := ih.mpr ⟨x, hxr, hxs⟩
            rw [h0] at hp
            exact Option.noConfusion hp

theorem statPhase_findErr (fs : Fs) (ss : List String)
    (hall : ∀ s ∈ ss, (Fs.stat fs s).isSome = true) :
    ∃ rs, statPhase fs ss = some rs ∧ findErr rs = ss.findSome? (errOf fs) := by
  induction ss with
  | nil => exact ⟨[], rfl, rfl⟩
  | cons s rest ih =>
    have hs : (Fs.stat fs s).isSome = true := hall s (List.mem_cons_self s rest)
    obtain ⟨st, hst⟩ := Option.isSome_iff_exists.mp hs
    obtain ⟨rs, hrs, hfe⟩ := ih (fun x hx => hall x (List.mem_cons_of_mem s hx))
    cases hk : st.kind with
    | dir =>
      refine ⟨Except.error "Directories are not supported yet." :: rs, ?_, ?_⟩
      · simp [statPhase, validateSource, hst, hk, hrs]
      · simp [findErr, List.findSome?_cons, errOf, hst, hk]
    | file =>
      refine ⟨Except.ok (s, st) :: rs, ?_, ?_⟩
      · simp [statPhase, validateSource, hst, hk, hrs]
      · simp only [findErr, List.findSome?_cons, errOf, hst, hk]
        simpa [findErr, errOf] using hfe

theorem errOf_some (fs : Fs) (s m : String) (h : errOf fs s = some m) :
    m = "Directories are not supported yet." := by
  unfold errOf at h
  cases hs : Fs.stat fs s with
  | none => rw [hs] at h; exact Option.noConfusion h
  | some st =>
    rw [hs] at h
    cases hk : st.kind with
    | dir =>
      simp [hk] at h
      exact h.symm
    | file => simp [hk] at h

/-- Claim C7 counterexample: with a single declared source whose stat fails
(the path is absent), the run does not return an IOError to the caller; it
aborts by a process abort (the expect call), so the claim's stated failure
mode is wrong. -/
theorem c7_stat_failure_is_abort_not_error :
    runMain { entries := [], nextIno := 0 } [] ["ghost.txt"] "dest" =
      Res.crash { entries := [], nextIno := 0 } "Failed to read metadata" ∧
    Res.isErr (runMain { entries := [], nextIno := 0 } [] ["ghost.txt"] "dest") = false := by
  constructor
  · rfl
  · rfl

/-- Claim C7 amended: if statting any declared source fails, the run aborts
by a process abort (a panic from expect) rather than returning an IOError;
if every stat succeeds and some declared source is a directory, the run
aborts with the directory validation error returned to the caller.  In both
cases the filesystem state is the untouched input state. -/
theorem c7_amended_abort_modes (fs : Fs) (gm sources : List String) (dest : String) :
    ((∃ s ∈ sources, Fs.stat fs s = none) →
      runMain fs gm sources dest = Res.crash fs "Failed to read metadata")
  ∧ ((∀ s ∈ sources, (Fs.stat fs s).isSome = true) →
      (∃ s ∈ sources, ∃ st, Fs.stat fs s = some st ∧ st.kind = FKind.dir) →
      runMain fs gm sources dest =
        Res.err fs (Err.validation "Directories are not supported yet.")) := by
  constructor
  · intro h
    have h0 : statPhase fs sources = none := (statPhase_none_iff fs sources).mpr h
    simp only [runMain, h0]
  · intro hall hdir
    obtain ⟨rs, hrs, hfe⟩ := statPhase_findErr fs sources hall
    obtain ⟨s, hsmem, st, hst, hk⟩ := hdir
    have herr : errOf fs s = some "Directories are not supported yet." := by
      simp [errOf, hst, hk]
    have hne : sources.findSome? (errOf fs) ≠ none := by
      intro hc
      have h2 := (List.findSome?_eq_none_iff.mp hc) s hsmem
      rw [herr] at h2
      exact Option.noConfusion h2
    obtain ⟨m, hm⟩ := Option.ne_none_iff_exists'.mp hne
    obtain ⟨x, hxmem, hxe⟩ := List.exists_of_findSome?_eq_some hm
    have hmd : m = "Directories are not supported yet." := errOf_some fs x m hxe
    subst hmd
    rw [hm] at hfe
    simp only [runMain, hrs, hfe]

theorem c7_amended_abort_modes_witness :
    runMain { entries := [], nextIno := 0 } [] ["lost.txt"] "dest" =
      Res.crash { entries := [], nextIno := 0 } "Failed to read metadata" ∧
    runMain { entries := [("adir", Node.dir)], nextIno := 1 } [] ["adir"] "dest" =
      Res.err { entries := [("adir", Node.dir)], nextIno := 1 }
        (Err.validation "Directories are not supported yet.") :=
  ⟨(c7_amended_abort_modes { entries := [], nextIno := 0 } [] ["lost.txt"] "dest").1
      ⟨"lost.txt", by simp, by rfl⟩,
   (c7_amended_abort_modes { entries := [("adir", Node.dir)], nextIno := 1 } [] ["adir"]
      "dest").2 (by decide)
      ⟨"adir", by simp, { ino := 0, nlink := 1, kind := FKind.dir }, by rfl, rfl⟩⟩

/-! ## C3 -/

/-- Claim C3 counterexample: a filesystem holding a.txt (a regular file with
a single hard link) and l (a pre-existing symbolic link to a.txt).  The
inventory built for a.txt expects zero other links, yet discovery over a
pattern matching both paths follow-stats l to the same storage id and records
it, so the recorded path count 1 exceeds expectedOtherLinks 0 and the wrapping
u64 subtraction yields 2^64 - 1 instead of a well-defined non-negative
remainder. -/
theorem c3_symlink_match_breaks_bound :
    Fs.stat { entries := [("a.txt", Node.file 1), ("l", Node.symlink "a.txt")], nextIno := 2 }
      "a.txt" = some { ino := 1, nlink := 1, kind := FKind.file } ∧
    mkCounterMain "a.txt" { ino := 1, nlink := 1, kind := FKind.file } =
      { path := "a.txt", inode := 1, num_other_links := 0, paths_other_links := [] } ∧
    search_and_count
      { entries := [("a.txt", Node.file 1), ("l", Node.symlink "a.txt")], nextIno := 2 }
      ["a.txt", "l"]
      [(1, { path := "a.txt", inode := 1, num_other_links := 0, paths_other_links := [] })] =
      Res.ok { entries := [("a.txt", Node.file 1), ("l", Node.symlink "a.txt")], nextIno := 2 }
        [(1, { path := "a.txt", inode := 1, num_other_links := 0,
               paths_other_links := ["l"] })] ∧
    ¬ ({ path := "a.txt", inode := 1, num_other_links := 0, paths_other_links := ["l"] } :
        SourceCounter).paths_other_links.length ≤
      ({ path := "a.txt", inode := 1, num_other_links := 0, paths_other_links := ["l"] } :
        SourceCounter).num_other_links ∧
    SourceCounter.get_remaning_other_links
      { path := "a.txt", inode := 1, num_other_links := 0, paths_other_links := ["l"] } =
      18446744073709551615 := by
  refine ⟨rfl, rfl, rfl, by decide, by decide⟩

theorem add_path_other_link_inv (fs : Fs) (k : Nat) (c : SourceCounter) (mp : String)
    (hc : EntryInv fs k c) (hmem : (mp, Node.file k) ∈ fs.entries) :
    EntryInv fs k (SourceCounter.add_path_other_link c mp) := by
  obtain ⟨hinode, hsrc, hnum, hnodup, hall⟩ := hc
  unfold SourceCounter.add_path_other_link
  by_cases h1 : mp ∈ c.paths_other_links
  · rw [if_pos h1]
    exact ⟨hinode, hsrc, hnum, hnodup, hall⟩
  · rw [if_neg h1]
    by_cases h2 : c.path = mp
    · rw [if_pos h2]
      exact ⟨hinode, hsrc, hnum, hnodup, hall⟩
    · rw [if_neg h2]
      refine ⟨hinode, hsrc, hnum, ?_, ?_⟩
      · rw [List.nodup_append]
        refine ⟨hnodup, List.nodup_singleton mp, ?_⟩
        intro a ha hamem
        rw [List.mem_singleton] at hamem
        subst hamem
        exact h1 ha
      · intro p hp
        rcases List.mem_append.mp hp with hl | hr
        · exact hall p hl
        · rw [List.mem_singleton] at hr
          subst hr
          exact ⟨hmem, fun he => h2 he.symm⟩

theorem counterKeys_updateCounter (cs : Counters) (k : Nat)
    (f : SourceCounter → SourceCounter) :
    counterKeys (updateCounter cs k f) = counterKeys cs := by
  induction cs with
  | nil => rfl
  | cons kv rest ih =>
    rw [updateCounter_cons]
    by_cases h : kv.1 = k
    · rw [if_pos h]
      show kv.1 :: counterKeys (updateCounter rest k f) = kv.1 :: counterKeys rest
      rw [ih]
    · rw [if_neg h]
      show kv.1 :: counterKeys (updateCounter rest k f) = kv.1 :: counterKeys rest
      rw [ih]

theorem counterKeys_addIfTracked (cs : Counters) (k : Nat) (p : String) :
    counterKeys (addIfTracked cs k p) = counterKeys cs := by
  unfold addIfTracked
  cases h : getCounter cs k with
  | none => rfl
  | some c => exact counterKeys_updateCounter cs k _

theorem addIfTracked_inv (fs : Fs) (cs : Counters) (st : StatInfo) (m : String)
    (hinv : ∀ kv ∈ cs, EntryInv fs kv.1 kv.2)
    (hm : ∀ k ∈ counterKeys cs, st.ino = k → (m, Node.file k) ∈ fs.entries) :
    ∀ kv ∈ addIfTracked cs st.ino m, EntryInv fs kv.1 kv.2 := by
  unfold addIfTracked
  cases hg : getCounter cs st.ino with
  | none => exact hinv
  | some c0 =>
    intro kv hkv
    obtain ⟨kv0, hkv0, heq⟩ := List.mem_map.mp hkv
    by_cases hk : kv0.1 = st.ino
    · rw [if_pos hk] at heq
      subst heq
      have hkey : kv0.1 ∈ counterKeys cs := List.mem_map.mpr ⟨kv0, hkv0, rfl⟩
      exact add_path_other_link_inv fs kv0.1 kv0.2 m (hinv kv0 hkv0) (hm kv0.1 hkey hk.symm)
    · rw [if_neg hk] at heq
      subst heq
      exact hinv kv0 hkv0

theorem search_inv (fs : Fs) (ms : List String) :
    ∀ (cs : Counters) (fs2 : Fs) (cs2 : Counters),
      search_and_count fs ms cs = Res.ok fs2 cs2 →
      (∀ kv ∈ cs, EntryInv fs kv.1 kv.2) →
      (∀ m ∈ ms, ∀ k ∈ counterKeys cs, statIno fs m = some k →
        (m, Node.file k) ∈ fs.entries) →
      ∀ kv ∈ cs2, EntryInv fs kv.1 kv.2 := by
  induction ms with
  | nil =>
    intro cs fs2 cs2 h hinv _
    simp only [search_and_count] at h
    injection h with h1 h2
    subst h2
    exact hinv
  | cons m rest ih =>
    intro cs fs2 cs2 h hinv hm
    simp only [search_and_count] at h
    cases hst : Fs.stat fs m with
    | none =>
      rw [hst] at h
      exact Res.noConfusion h
    | some st =>
      rw [hst] at h
      refine ih (addIfTracked cs st.ino m) fs2 cs2 h ?_ ?_
      · refine addIfTracked_inv fs cs st m hinv ?_
        intro k hk hek
        refine hm m (List.mem_cons_self m rest) k hk ?_
        simp [statIno, hst, hek]
      · intro m2 hm2 k hk hsi
        rw [counterKeys_addIfTracked] at hk
        exact hm m2 (List.mem_cons_of_mem m hm2) k hk hsi

theorem filterPaths_nodup (fs : Fs) (i : Nat)
    (hnd : (fs.entries.map (fun e => e.1)).Nodup) : (filterPaths fs i).Nodup := by
  unfold filterPaths
  exact hnd.sublist ((List.filter_sublist fs.entries).map (fun e => e.1))

theorem length_filter_ne_of_mem {l : List String} {a : String}
    (hnd : l.Nodup) (ha : a ∈ l) :
    (l.filter (fun p => decide (p ≠ a))).length + 1 = l.length := by
  induction l with
  | nil => cases ha
  | cons b bs ih =>
    by_cases hb : b = a
    · subst hb
      have hnotin : b ∉ bs := (List.nodup_cons.mp hnd).1
      have hself : bs.filter (fun p => decide (p ≠ b)) = bs := by
        refine List.filter_eq_self.mpr ?_
        intro x hx
        simp only [decide_eq_true_eq]
        intro he
        subst he
        exact hnotin hx
      rw [List.filter_cons]
      have hcond : decide (b ≠ b) = false := by simp
      rw [hcond]
      simp only [Bool.false_eq_true, if_false]
      rw [hself]
      rfl
    · have ha2 : a ∈ bs := by
        rcases List.mem_cons.mp ha with h | h
        · exact absurd h.symm hb
        · exact h
      have ih2 := ih (List.nodup_cons.mp hnd).2 ha2
      rw [List.filter_cons]
      have hcond : decide (b ≠ a) = true := by simpa using hb
      rw [hcond]
      simp only [if_true]
      simp only [List.length_cons]
      omega

theorem linkCount_le (fs : Fs) (k : Nat) : linkCount fs k ≤ fs.entries.length := by
  unfold linkCount filterPaths
  rw [List.length_map]
  exact (List.filter_sublist fs.entries).length_le

theorem entryInv_bound (fs : Fs) (k : Nat) (c : SourceCounter)
    (hnd : (fs.entries.map (fun e => e.1)).Nodup)
    (hc : EntryInv fs k c) :
    c.paths_other_links.length ≤ c.num_other_links := by
  obtain ⟨hinode, hsrc, hnum, hnodup, hall⟩ := hc
  have hfp : (filterPaths fs k).Nodup := filterPaths_nodup fs k hnd
  have hsrcmem : c.path ∈ filterPaths fs k := mem_filterPaths hsrc
  have hsub : c.paths_other_links ⊆
      (filterPaths fs k).filter (fun p => decide (p ≠ c.path)) := by
    intro p hp
    refine List.mem_filter.mpr ⟨mem_filterPaths (hall p hp).1, ?_⟩
    simp [(hall p hp).2]
  have hlen1 : c.paths_other_links.length ≤
      ((filterPaths fs k).filter (fun p => decide (p ≠ c.path))).length :=
    (hnodup.subperm hsub).length_le
  have hlen2 := length_filter_ne_of_mem hfp hsrcmem
  rw [hnum]
  unfold linkCount
  omega

theorem get_remaning_eq_sub (c : SourceCounter)
    (h1 : c.paths_other_links.length ≤ c.num_other_links)
    (h2 : c.num_other_links < 18446744073709551616) :
    SourceCounter.get_remaning_other_links c =
      c.num_other_links - c.paths_other_links.length := by
  unfold SourceCounter.get_remaning_other_links
  omega

/-- Claim C3 amended: provided every tracked inventory entry starts from a
source path that is itself a hard-link directory entry of its storage object
with expectedOtherLinks equal to the object's link count minus one, and every
matched path whose followed stat yields a tracked storage id is likewise a
genuine hard-link directory entry of that object (in particular no symbolic
link resolving to a tracked source is matched, and no source is declared
through a symlink), then after any discovery run the recorded path count of
every entry is at most expectedOtherLinks and the remaining-links subtraction
is exact, with no u64 underflow.  Quantifying over all match lists covers
every intermediate point of a run. -/
theorem c3_amended_discovery_bound (fs : Fs) (ms : List String) (cs : Counters)
    (fs2 : Fs) (cs2 : Counters)
    (hnd : (fs.entries.map (fun e => e.1)).Nodup)
    (hsize : fs.entries.length < 18446744073709551616)
    (hinv : ∀ kv ∈ cs, EntryInv fs kv.1 kv.2)
    (hm : ∀ m ∈ ms, ∀ k ∈ counterKeys cs, statIno fs m = some k →
      (m, Node.file k) ∈ fs.entries)
    (hrun : search_and_count fs ms cs = Res.ok fs2 cs2) :
    ∀ kv ∈ cs2, kv.2.paths_other_links.length ≤ kv.2.num_other_links ∧
      SourceCounter.get_remaning_other_links kv.2 =
        kv.2.num_other_links - kv.2.paths_other_links.length := by
  intro kv hkv
  have hinv2 := search_inv fs ms cs fs2 cs2 hrun hinv hm kv hkv
  have hb := entryInv_bound fs kv.1 kv.2 hnd hinv2
  have hnum_lt : kv.2.num_other_links < 18446744073709551616 := by
    have hle := linkCount_le fs kv.1
    have hnum := hinv2.2.2.1
    omega
  exact ⟨hb, get_remaning_eq_sub kv.2 hb hnum_lt⟩

theorem c3_amended_discovery_bound_witness :
    (SourceCounter.mk "a.txt" 1 1 ["b.txt"]).paths_other_links.length ≤
      (SourceCounter.mk "a.txt" 1 1 ["b.txt"]).num_other_links ∧
    SourceCounter.get_remaning_other_links (SourceCounter.mk "a.txt" 1 1 ["b.txt"]) =
      (SourceCounter.mk "a.txt" 1 1 ["b.txt"]).num_other_links -
        (SourceCounter.mk "a.txt" 1 1 ["b.txt"]).paths_other_links.length :=
  c3_amended_discovery_bound
    { entries := [("a.txt", Node.file 1), ("b.txt", Node.file 1)], nextIno := 2 }
    ["a.txt", "b.txt"]
    [(1, SourceCounter.mk "a.txt" 1 1 [])]
    { entries := [("a.txt", Node.file 1), ("b.txt", Node.file 1)], nextIno := 2 }
    [(1, SourceCounter.mk "a.txt" 1 1 ["b.txt"])]
    (by decide) (by decide) (by decide) (by decide) (by rfl)
    (1, SourceCounter.mk "a.txt" 1 1 ["b.txt"]) (by decide)
